import Mathlib

/-!
Verification of the dependency-resolution and archived-status-check engine of
gh-arc, shallowly embedded from the Go sources:

* `pkg/gomod/gomod.go` — `ListArchived`, its dependency extraction loop
  (the `addDep` closure and the replace-directive loop), the indirect-inclusion
  policy, and the `archivedPrinter`;
* `pkg/client` — `Client.GetRepoResult` with its in-memory cache.

Machine-independent effects (stdout lines, remote HTTP calls, the GitHub
client construction) are made explicit: the run returns the list of printed
lines, the list of repository lookups issued, and whether the remote client
was constructed.
-/

namespace GhArc

/-- One occurrence of a repository inside one go.mod manifest:
Go's `repoInfo{indirect bool; goModPath string}` in `gomod.go`. -/
structure RepoInfo where
  indirect : Bool
  goModPath : String
deriving DecidableEq, Repr

/-- A requirement record as yielded by the manifest parser
(`modfile.Require`: module path plus indirect flag). -/
structure Require where
  path : String
  indirect : Bool
deriving DecidableEq, Repr

/-- A replace directive as yielded by the manifest parser
(`modfile.Replace`: only the target path `rep.New.Path` is consumed). -/
structure Replace where
  newPath : String
deriving DecidableEq, Repr

/-- A parsed manifest: its file path and its requirement / replace records.
This is the output of `modfile.Parse` as consumed by `ListArchived`. -/
structure Manifest where
  name : String
  require : List Require
  replace : List Replace
deriving DecidableEq, Repr

/-- Remote repository metadata: Go's `RepoResult{Archived bool; PushedAt string}`. -/
structure RepoResult where
  archived : Bool
  pushedAt : String
deriving DecidableEq, Repr

/-- Split a character list at every occurrence of `c` (the separator is
dropped); the list of fragments is never empty. -/
def splitChar (c : Char) : List Char → List (List Char)
  | [] => [[]]
  | x :: xs =>
    let r := splitChar c xs
    if x = c then [] :: r
    else
      match r with
      | [] => [[x]]
      | y :: ys => (x :: y) :: ys

/-- Go's `strings.Split(s, sep)` for a one-character separator. -/
def goSplit (s : String) (c : Char) : List String :=
  (splitChar c s.data).map String.mk

/-- Go's `strings.HasPrefix(s, pre)`. -/
def goStartsWith (s pre : String) : Bool :=
  pre.data.isPrefixOf s.data

/-- The `repos` map of `ListArchived` (`map[string][]repoInfo`), modelled as an
insertion-ordered association list from repository key `owner/name` to the
accumulated references. -/
abbrev Index := List (String × List RepoInfo)

/-- Read `repos[repo]` — the reference list stored for a key (empty when absent). -/
def lookupIndex : Index → String → List RepoInfo
  | [], _ => []
  | e :: rest, repo => if e.1 = repo then e.2 else lookupIndex rest repo

/-- Perform `repos[repo] = append(repos[repo], info)` — append one reference to a
key's list, keeping insertion order of keys; a fresh key goes to the end. -/
def updateIndex (idx : Index) (repo : String) (info : RepoInfo) : Index :=
  match idx with
  | [] => [(repo, [info])]
  | e :: rest =>
    if e.1 = repo then (e.1, e.2 ++ [info]) :: rest
    else e :: updateIndex rest repo info

/-- The `addDep` closure of `ListArchived`: record a requirement's module path
under its `owner/name` key when it is hosted on github.com and has at least
three slash-separated segments in total. -/
def addDep (name : String) (idx : Index) (modPath : String) (indirect : Bool) : Index :=
  if goStartsWith modPath "github.com/" then
    let parts := goSplit modPath '/'
    if parts.length < 3 then idx
    else updateIndex idx ((parts.getD 1 "") ++ "/" ++ (parts.getD 2 "")) ⟨indirect, name⟩
  else idx

/-- The replace-directive loop body of `ListArchived`: record the replace
target as a direct reference, unless a reference for the same
(repository, manifest) pair is already present. -/
def addReplace (name : String) (idx : Index) (newPath : String) : Index :=
  if goStartsWith newPath "github.com/" then
    let parts := goSplit newPath '/'
    if parts.length < 3 then idx
    else
      let repo := (parts.getD 1 "") ++ "/" ++ (parts.getD 2 "")
      cond ((lookupIndex idx repo).any (fun info => info.goModPath == name))
        idx
        (updateIndex idx repo ⟨false, name⟩)
  else idx

/-- Process one parsed manifest: all requirements through `addDep`, then all
replace directives, exactly as the per-manifest body of `ListArchived`. -/
def processManifest (idx : Index) (m : Manifest) : Index :=
  let idx1 := m.require.foldl (fun acc r => addDep m.name acc r.path r.indirect) idx
  m.replace.foldl (fun acc rep => addReplace m.name acc rep.newPath) idx1

/-- Build the full dependency index over all located manifests. -/
def buildIndex (ms : List Manifest) : Index :=
  ms.foldl processManifest []

/-- The line `archivedPrinter.Print` writes to stdout, mirroring its two
`fmt.Printf` branches in `gomod.go`. -/
def printLine (goModPath repo pushedAt : String) (indirect : Bool) : String :=
  if indirect then
    goModPath ++ ": https://github.com/" ++ repo ++ " (last push: " ++ pushedAt ++ ") // indirect"
  else
    goModPath ++ ": https://github.com/" ++ repo ++ " (last push: " ++ pushedAt ++ ")"

/-- The body of one lookup goroutine of `ListArchived`: call the status client
for the entry's repository; on error print nothing (the error is only logged);
on success, if the repository is archived, print one line per reference not
suppressed by the indirect-inclusion policy. Returns the printed lines. -/
def processRepo (checkIndirect : Bool) (lookup : String → Except String RepoResult)
    (entry : String × List RepoInfo) : List String :=
  match lookup entry.1 with
  | .error _ => []
  | .ok res =>
    if res.archived then
      entry.2.filterMap (fun info =>
        if !checkIndirect && info.indirect then none
        else some (printLine info.goModPath entry.1 res.pushedAt info.indirect))
    else []

/-- The indirect-inclusion policy of `ListArchived`: an index entry is skipped
(never looked up) exactly when `checkIndirect` is false and every reference to
it is indirect. -/
def policyKeep (checkIndirect : Bool) (idx : Index) : Index :=
  idx.filter (fun e => checkIndirect || !(e.2.all (fun info => info.indirect)))

/-- Observable outcome of a `ListArchived` run: the returned count and error,
the stdout lines, the repository keys looked up through the status client, and
whether `client.New` was invoked. -/
structure RunResult where
  count : Nat
  err : Option String
  lines : List String
  lookups : List String
  clientRequested : Bool
deriving DecidableEq, Repr

/-- Model of `ListArchived` of `gomod.go`, with its effects made explicit.
`walk` is the outcome of `util.FindFiles` followed by per-file read/parse
(already-parsed manifests; a traversal failure is `Except.error`);
`newClientErr` is the failure, if any, of `client.New`; `lookup` is
`client.GetRepoResult` for a repository key. Within one run every processed
key is distinct and the client cache starts empty, so each processed key
causes exactly one lookup. -/
def listArchived (walk : Except String (List Manifest)) (newClientErr : Option String)
    (lookup : String → Except String RepoResult) (checkIndirect : Bool) : RunResult :=
  match walk with
  | .error e => ⟨0, some ("failed to find go.mod files: " ++ e), [], [], false⟩
  | .ok ms =>
    let idx := buildIndex ms
    if idx.isEmpty then ⟨0, none, [], [], false⟩
    else
      match newClientErr with
      | some e => ⟨0, some ("failed to create github api client: " ++ e), [], [], true⟩
      | none =>
        let kept := policyKeep checkIndirect idx
        let lines := (kept.map (processRepo checkIndirect lookup)).flatten
        ⟨lines.length, none, lines, kept.map (fun e => e.1), true⟩

/-! ## Status client (`pkg/client`) -/

/-- The client cache (`go-cache`), restricted to entries within their TTL:
an association list from repository key to cached `RepoResult`, newest first. -/
abbrev Cache := List (String × RepoResult)

/-- Read `cache.Get(repo)` for an unexpired cache. -/
def cacheGet : Cache → String → Option RepoResult
  | [], _ => none
  | e :: rest, repo => if e.1 = repo then some e.2 else cacheGet rest repo

/-- Write `cache.Set(repo, v)`: unconditional overwrite. -/
def cacheSet (c : Cache) (repo : String) (v : RepoResult) : Cache :=
  (repo, v) :: c.filter (fun e => !(e.1 = repo))

/-- Outcome of one `GetRepoResult` call: the returned value or error, the
cache afterwards, and the number of remote `Get` calls issued (0 or 1). -/
structure ClientCall where
  result : Except String RepoResult
  cache : Cache
  remoteGets : Nat
deriving Repr

/-- Model of `Client.GetRepoResult` of `pkg/client`: consult the cache; on miss,
validate that the key has exactly two slash-separated segments, build the path
`repos/<owner>/<name>`, and delegate to the remote collaborator `get`; a
failure is wrapped and not cached; a success is cached before returning. -/
def getRepoResult (get : String → Except String RepoResult) (c : Cache)
    (repo : String) : ClientCall :=
  match cacheGet c repo with
  | some cached => ⟨.ok cached, c, 0⟩
  | none =>
    match goSplit repo '/' with
    | [owner, nm] =>
      match get ("repos/" ++ owner ++ "/" ++ nm) with
      | .error e => ⟨.error ("failed to fetch repo " ++ repo ++ ": " ++ e), c, 1⟩
      | .ok result => ⟨.ok result, cacheSet c repo result, 1⟩
    | _ => ⟨.error ("invalid repo: " ++ repo), c, 0⟩

instance : DecidableEq (Except String RepoResult) := fun a b =>
  match a, b with
  | .error x, .error y =>
    if h : x = y then .isTrue (by simp [h]) else .isFalse (by simp [h])
  | .error _, .ok _ => .isFalse (by simp)
  | .ok _, .error _ => .isFalse (by simp)
  | .ok x, .ok y =>
    if h : x = y then .isTrue (by simp [h]) else .isFalse (by simp [h])

/-! ## `archivedPrinter.Print` as an event trace -/

/-- Atomic events of `archivedPrinter.Print`: writing the output line,
acquiring the mutex, incrementing the counter, releasing the mutex. -/
inductive PrintEv where
  | out : String → PrintEv
  | lock : PrintEv
  | inc : PrintEv
  | unlock : PrintEv
deriving DecidableEq, Repr

/-- The statement order of `archivedPrinter.Print` in `gomod.go`:
`fmt.Printf(...)`, then `ap.mu.Lock()`, `ap.count++`, `ap.mu.Unlock()`. -/
def printTrace (goModPath repo pushedAt : String) (indirect : Bool) : List PrintEv :=
  [.out (printLine goModPath repo pushedAt indirect), .lock, .inc, .unlock]

/-- An event occurs strictly inside a lock/unlock pair of the trace. -/
def guardedIn (evs : List PrintEv) (e : PrintEv) : Prop :=
  ∃ i j k : Fin evs.length, i < j ∧ j < k ∧
    evs.get i = .lock ∧ evs.get j = e ∧ evs.get k = .unlock

instance (evs : List PrintEv) (e : PrintEv) : Decidable (guardedIn evs e) := by
  unfold guardedIn; infer_instance

/-! ## Helper lemmas -/

/-- Appending a reference to a key's list via `updateIndex` extends exactly
that key's stored list by one element. -/
theorem lookupIndex_updateIndex (idx : Index) (k : String) (v : RepoInfo) :
    lookupIndex (updateIndex idx k v) k = lookupIndex idx k ++ [v] := by
  induction idx with
  | nil => simp [updateIndex, lookupIndex]
  | cons e rest ih =>
    by_cases h : e.1 = k
    · simp [updateIndex, h, lookupIndex]
    · simp [updateIndex, h, lookupIndex, ih]

/-- A freshly written cache entry is immediately readable. -/
theorem cacheGet_cacheSet (c : Cache) (k : String) (v : RepoResult) :
    cacheGet (cacheSet c k v) k = some v := by
  simp [cacheGet, cacheSet]

/-- Behavior of `GetRepoResult` on a cache hit: the cached value, no remote call. -/
theorem getRepoResult_hit (get : String → Except String RepoResult) (c : Cache)
    (repo : String) (v : RepoResult) (hc : cacheGet c repo = some v) :
    getRepoResult get c repo = ⟨.ok v, c, 0⟩ := by
  unfold getRepoResult
  rw [hc]

/-- Behavior of `GetRepoResult` on a cache miss with a successful remote fetch: the fetched
value is returned, cached, and one remote call is made. -/
theorem getRepoResult_fetch_ok (get : String → Except String RepoResult) (c : Cache)
    (repo owner nm : String) (r : RepoResult)
    (hc : cacheGet c repo = none) (hsp : goSplit repo '/' = [owner, nm])
    (hok : get ("repos/" ++ owner ++ "/" ++ nm) = .ok r) :
    getRepoResult get c repo = ⟨.ok r, cacheSet c repo r, 1⟩ := by
  unfold getRepoResult
  rw [hc, hsp]
  simp [hok]

/-- Behavior of `GetRepoResult` on a cache miss with a failing remote fetch: a wrapped
error, the cache untouched, one remote call made. -/
theorem getRepoResult_fetch_fail (get : String → Except String RepoResult) (c : Cache)
    (repo owner nm e : String)
    (hc : cacheGet c repo = none) (hsp : goSplit repo '/' = [owner, nm])
    (herr : get ("repos/" ++ owner ++ "/" ++ nm) = .error e) :
    getRepoResult get c repo =
      ⟨.error ("failed to fetch repo " ++ repo ++ ": " ++ e), c, 1⟩ := by
  unfold getRepoResult
  rw [hc, hsp]
  simp [herr]

/-- The function `processRepo` consults the status client only at the entry's own key. -/
theorem processRepo_ext (ci : Bool) (l1 l2 : String → Except String RepoResult)
    (entry : String × List RepoInfo) (h : l1 entry.1 = l2 entry.1) :
    processRepo ci l1 entry = processRepo ci l2 entry := by
  unfold processRepo
  rw [h]

/-- A failing lookup contributes no output lines. -/
theorem processRepo_fail (ci : Bool) (lookup : String → Except String RepoResult)
    (k e : String) (infos : List RepoInfo) (hfail : lookup k = .error e) :
    processRepo ci lookup (k, infos) = [] := by
  unfold processRepo
  rw [hfail]

/-- Behavior of `ListArchived` on a traversal failure. -/
theorem listArchived_walk_fail (e : String) (ncErr : Option String)
    (lookup : String → Except String RepoResult) (ci : Bool) :
    listArchived (.error e) ncErr lookup ci =
      ⟨0, some ("failed to find go.mod files: " ++ e), [], [], false⟩ := rfl

/-- Behavior of `ListArchived` when no github.com modules were found. -/
theorem listArchived_empty (ms : List Manifest) (ncErr : Option String)
    (lookup : String → Except String RepoResult) (ci : Bool)
    (he : buildIndex ms = []) :
    listArchived (.ok ms) ncErr lookup ci = ⟨0, none, [], [], false⟩ := by
  unfold listArchived
  dsimp only
  rw [he]
  simp

/-- Behavior of `ListArchived` when the github client cannot be constructed. -/
theorem listArchived_client_fail (ms : List Manifest) (e : String)
    (lookup : String → Except String RepoResult) (ci : Bool)
    (hne : (buildIndex ms).isEmpty = false) :
    listArchived (.ok ms) (some e) lookup ci =
      ⟨0, some ("failed to create github api client: " ++ e), [], [], true⟩ := by
  unfold listArchived
  dsimp only
  rw [hne]
  simp

/-- The normal run of `ListArchived`: the policy-filtered index is looked up
key by key, and the printed lines are the concatenation of each key's
contribution. -/
theorem listArchived_run (ms : List Manifest)
    (lookup : String → Except String RepoResult) (ci : Bool)
    (hne : (buildIndex ms).isEmpty = false) :
    listArchived (.ok ms) none lookup ci =
      ⟨((policyKeep ci (buildIndex ms)).map (processRepo ci lookup)).flatten.length, none,
       ((policyKeep ci (buildIndex ms)).map (processRepo ci lookup)).flatten,
       (policyKeep ci (buildIndex ms)).map (fun e => e.1), true⟩ := by
  unfold listArchived
  dsimp only
  rw [hne]
  simp

/-- The function `printLine` yields the base line with the indirect suffix appended exactly
when the flag is set. -/
theorem printLine_format (p r t : String) (i : Bool) :
    printLine p r t i =
      (p ++ ": https://github.com/" ++ r ++ " (last push: " ++ t ++ ")") ++
        (if i then " // indirect" else "") := by
  cases i with
  | false => simp [printLine]
  | true =>
    unfold printLine
    have h : (") // indirect" : String) = ")" ++ " // indirect" := by decide
    simp only [if_true, ite_true]
    rw [h, ← String.append_assoc]

/-! ## Claims -/

/-- C1: over manifests `a/go.mod` (direct require of `github.com/x/y`) and
`b/go.mod` (indirect require of the same), with the remote reporting `x/y`
archived with pushed_at 2024-01-01T00:00:00Z: with `includeIndirect = false`
the run performs exactly one lookup (for `x/y`), prints exactly the line for
`a/go.mod`, and returns count 1; with `includeIndirect = true` it prints both
lines and returns count 2. -/
theorem C1_two_manifests_shared_repo :
    (listArchived
        (.ok [⟨"a/go.mod", [⟨"github.com/x/y", false⟩], []⟩,
              ⟨"b/go.mod", [⟨"github.com/x/y", true⟩], []⟩]) none
        (fun r => if r = "x/y" then .ok ⟨true, "2024-01-01T00:00:00Z"⟩ else .error "no such repo")
        false =
      ⟨1, none, ["a/go.mod: https://github.com/x/y (last push: 2024-01-01T00:00:00Z)"],
       ["x/y"], true⟩) ∧
    (listArchived
        (.ok [⟨"a/go.mod", [⟨"github.com/x/y", false⟩], []⟩,
              ⟨"b/go.mod", [⟨"github.com/x/y", true⟩], []⟩]) none
        (fun r => if r = "x/y" then .ok ⟨true, "2024-01-01T00:00:00Z"⟩ else .error "no such repo")
        true =
      ⟨2, none,
       ["a/go.mod: https://github.com/x/y (last push: 2024-01-01T00:00:00Z)",
        "b/go.mod: https://github.com/x/y (last push: 2024-01-01T00:00:00Z) // indirect"],
       ["x/y"], true⟩) := by
  constructor <;> decide

/-- C2 counterexample: `github.com/a/b` has two (hence fewer than three)
slash-separated segments after the host, yet `addDep` does not ignore it — it
records the reference under identity `a/b`. -/
theorem C2_counterexample_two_segments :
    goStartsWith "github.com/a/b" "github.com/" = true ∧
    (goSplit "github.com/a/b" '/').length - 1 = 2 ∧
    addDep "m/go.mod" [] "github.com/a/b" false = [("a/b", [⟨false, "m/go.mod"⟩])] := by
  decide

/-- C2 (amended): for a module path with the `github.com/` prefix — whether it
appears as a requirement (`addDep`) or as a replace target (`addReplace`) —
the extractor ignores the path exactly when it has fewer than three
slash-separated segments in total (host included), i.e. fewer than two
segments after the host; otherwise the first two segments after the host form
the identity: a requirement appends a reference with its indirect flag under
that identity, and a replace target appends a direct reference under that
identity unless the same manifest already references it. -/
theorem C2_addDep_segment_threshold (modPath name : String) (ind : Bool) (idx : Index)
    (h : goStartsWith modPath "github.com/" = true) :
    ((goSplit modPath '/').length < 3 →
      addDep name idx modPath ind = idx ∧ addReplace name idx modPath = idx) ∧
    (3 ≤ (goSplit modPath '/').length →
      lookupIndex (addDep name idx modPath ind)
          (((goSplit modPath '/').getD 1 "") ++ "/" ++ ((goSplit modPath '/').getD 2 "")) =
        lookupIndex idx
          (((goSplit modPath '/').getD 1 "") ++ "/" ++ ((goSplit modPath '/').getD 2 "")) ++
          [⟨ind, name⟩] ∧
      lookupIndex (addReplace name idx modPath)
          (((goSplit modPath '/').getD 1 "") ++ "/" ++ ((goSplit modPath '/').getD 2 "")) =
        cond ((lookupIndex idx
                (((goSplit modPath '/').getD 1 "") ++ "/" ++ ((goSplit modPath '/').getD 2 ""))).any
              (fun info => info.goModPath == name))
          (lookupIndex idx
            (((goSplit modPath '/').getD 1 "") ++ "/" ++ ((goSplit modPath '/').getD 2 "")))
          (lookupIndex idx
            (((goSplit modPath '/').getD 1 "") ++ "/" ++ ((goSplit modPath '/').getD 2 "")) ++
            [⟨false, name⟩])) := by
  constructor
  · intro hlen
    constructor
    · simp [addDep, h, hlen]
    · simp [addReplace, h, hlen]
  · intro hlen
    have hnot : ¬ (goSplit modPath '/').length < 3 := by omega
    constructor
    · simp [addDep, h, hnot, lookupIndex_updateIndex]
    · unfold addReplace
      rw [if_pos h, if_neg hnot]
      dsimp only
      cases hany : (lookupIndex idx
          (((goSplit modPath '/').getD 1 "") ++ "/" ++ ((goSplit modPath '/').getD 2 ""))).any
          (fun info => info.goModPath == name) with
      | true => rw [Bool.cond_true, Bool.cond_true]
      | false =>
        rw [Bool.cond_false, Bool.cond_false]
        exact lookupIndex_updateIndex idx _ ⟨false, name⟩

/-- C2 witness: instantiation at `github.com/foo/bar`, for the requirement and
the replace-target side alike. -/
theorem C2_addDep_segment_threshold_witness :
    3 ≤ (goSplit "github.com/foo/bar" '/').length ∧
    (lookupIndex (addDep "m/go.mod" [] "github.com/foo/bar" true) "foo/bar" =
        lookupIndex ([] : Index) "foo/bar" ++ [⟨true, "m/go.mod"⟩] ∧
      lookupIndex (addReplace "m/go.mod" [] "github.com/foo/bar") "foo/bar" =
        cond ((lookupIndex ([] : Index) "foo/bar").any (fun info => info.goModPath == "m/go.mod"))
          (lookupIndex ([] : Index) "foo/bar")
          (lookupIndex ([] : Index) "foo/bar" ++ [⟨false, "m/go.mod"⟩])) :=
  ⟨by decide,
   (C2_addDep_segment_threshold "github.com/foo/bar" "m/go.mod" true [] (by decide)).2 (by decide)⟩

/-- C3: for a replace target hosted on github.com with a well-formed identity,
`addReplace` leaves the index unchanged when the same manifest already holds a
reference for that identity, and otherwise appends exactly one reference for
that identity with the indirect flag false (direct). -/
theorem C3_addReplace_no_duplicate (name newPath repo : String) (idx : Index)
    (h : goStartsWith newPath "github.com/" = true)
    (hlen : 3 ≤ (goSplit newPath '/').length)
    (hrepo : ((goSplit newPath '/').getD 1 "") ++ "/" ++ ((goSplit newPath '/').getD 2 "") = repo) :
    ((lookupIndex idx repo).any (fun info => info.goModPath == name) = true →
      addReplace name idx newPath = idx) ∧
    ((lookupIndex idx repo).any (fun info => info.goModPath == name) = false →
      lookupIndex (addReplace name idx newPath) repo =
        lookupIndex idx repo ++ [⟨false, name⟩]) := by
  have hnot : ¬ (goSplit newPath '/').length < 3 := by omega
  constructor
  · intro hfound
    unfold addReplace
    rw [if_pos h, if_neg hnot, hrepo]
    dsimp only
    rw [hfound, Bool.cond_true]
  · intro hfound
    unfold addReplace
    rw [if_pos h, if_neg hnot, hrepo]
    dsimp only
    rw [hfound]
    exact lookupIndex_updateIndex idx repo ⟨false, name⟩

/-- C3 witness: a replace target `github.com/new/mod` in a manifest with no
prior reference for `new/mod` yields a direct reference, while the same target
in a manifest already referencing `new/mod` changes nothing. -/
theorem C3_addReplace_no_duplicate_witness :
    (lookupIndex [("new/mod", [⟨true, "other/go.mod"⟩])] "new/mod").any
        (fun info => info.goModPath == "m/go.mod") = false ∧
    lookupIndex (addReplace "m/go.mod" [("new/mod", [⟨true, "other/go.mod"⟩])] "github.com/new/mod")
        "new/mod" =
      lookupIndex [("new/mod", [⟨true, "other/go.mod"⟩])] "new/mod" ++ [⟨false, "m/go.mod"⟩] :=
  ⟨by decide,
   (C3_addReplace_no_duplicate "m/go.mod" "github.com/new/mod" "new/mod"
      [("new/mod", [⟨true, "other/go.mod"⟩])] (by decide) (by decide) (by decide)).2 (by decide)⟩

/-- C4: within the cache TTL (modelled by an unexpired cache), two successive
`GetRepoResult` calls for the same repository issue at most one remote `Get`
in total, provided the first call succeeds: the second call hits the cache,
performs no remote call, and returns the same result as the first. -/
theorem C4_client_idempotent (get : String → Except String RepoResult) (c : Cache)
    (repo : String) (v : RepoResult)
    (h : (getRepoResult get c repo).result = .ok v) :
    (getRepoResult get (getRepoResult get c repo).cache repo).result =
      (getRepoResult get c repo).result ∧
    (getRepoResult get (getRepoResult get c repo).cache repo).remoteGets = 0 ∧
    (getRepoResult get c repo).remoteGets +
      (getRepoResult get (getRepoResult get c repo).cache repo).remoteGets ≤ 1 := by
  cases hc : cacheGet c repo with
  | some cached =>
    have h1 := getRepoResult_hit get c repo cached hc
    rw [h1]
    simp [h1]
  | none =>
    match hsp : goSplit repo '/' with
    | [owner, nm] =>
      cases hr : get ("repos/" ++ owner ++ "/" ++ nm) with
      | error e =>
        rw [getRepoResult_fetch_fail get c repo owner nm e hc hsp hr] at h
        simp at h
      | ok r =>
        have h1 := getRepoResult_fetch_ok get c repo owner nm r hc hsp hr
        have h2 := getRepoResult_hit get (cacheSet c repo r) repo r (cacheGet_cacheSet c repo r)
        rw [h1]
        simp [h2]
    | [] =>
      rw [show getRepoResult get c repo = ⟨.error ("invalid repo: " ++ repo), c, 0⟩ by
        unfold getRepoResult; rw [hc, hsp]] at h
      simp at h
    | [a] =>
      rw [show getRepoResult get c repo = ⟨.error ("invalid repo: " ++ repo), c, 0⟩ by
        unfold getRepoResult; rw [hc, hsp]] at h
      simp at h
    | a :: b :: x :: t =>
      rw [show getRepoResult get c repo = ⟨.error ("invalid repo: " ++ repo), c, 0⟩ by
        unfold getRepoResult; rw [hc, hsp]] at h
      simp at h

/-- C4 witness: a fresh client with an always-successful remote. -/
theorem C4_client_idempotent_witness :
    (getRepoResult (fun _ => .ok ⟨true, "2024-01-01T00:00:00Z"⟩) [] "x/y").result =
      .ok (⟨true, "2024-01-01T00:00:00Z"⟩ : RepoResult) ∧
    ((getRepoResult (fun _ => .ok ⟨true, "2024-01-01T00:00:00Z"⟩)
        (getRepoResult (fun _ => .ok ⟨true, "2024-01-01T00:00:00Z"⟩) [] "x/y").cache "x/y").result =
      (getRepoResult (fun _ => .ok ⟨true, "2024-01-01T00:00:00Z"⟩) [] "x/y").result ∧
    (getRepoResult (fun _ => .ok ⟨true, "2024-01-01T00:00:00Z"⟩)
        (getRepoResult (fun _ => .ok ⟨true, "2024-01-01T00:00:00Z"⟩) [] "x/y").cache "x/y").remoteGets = 0 ∧
    (getRepoResult (fun _ => .ok ⟨true, "2024-01-01T00:00:00Z"⟩) [] "x/y").remoteGets +
      (getRepoResult (fun _ => .ok ⟨true, "2024-01-01T00:00:00Z"⟩)
        (getRepoResult (fun _ => .ok ⟨true, "2024-01-01T00:00:00Z"⟩) [] "x/y").cache "x/y").remoteGets ≤ 1) :=
  ⟨by decide,
   C4_client_idempotent (fun _ => .ok ⟨true, "2024-01-01T00:00:00Z"⟩) [] "x/y"
     ⟨true, "2024-01-01T00:00:00Z"⟩ (by decide)⟩

/-- C5: when the cache misses and the remote `Get` fails, `GetRepoResult`
returns an error wrapping the underlying cause, leaves the cache unchanged,
and a subsequent lookup for the same repository issues a fresh remote call. -/
theorem C5_failure_never_cached (get : String → Except String RepoResult) (c : Cache)
    (repo owner nm e : String)
    (hmiss : cacheGet c repo = none)
    (hsp : goSplit repo '/' = [owner, nm])
    (hfail : get ("repos/" ++ owner ++ "/" ++ nm) = .error e) :
    (getRepoResult get c repo).result = .error ("failed to fetch repo " ++ repo ++ ": " ++ e) ∧
    (getRepoResult get c repo).cache = c ∧
    (getRepoResult get c repo).remoteGets = 1 ∧
    (getRepoResult get (getRepoResult get c repo).cache repo).remoteGets = 1 := by
  have h1 := getRepoResult_fetch_fail get c repo owner nm e hmiss hsp hfail
  rw [h1]
  simp [h1]

/-- C5 witness: empty cache, remote failing with "api error". -/
theorem C5_failure_never_cached_witness :
    cacheGet [] "owner/repo" = none ∧
    ((getRepoResult (fun _ => .error "api error") [] "owner/repo").result =
        .error "failed to fetch repo owner/repo: api error" ∧
      (getRepoResult (fun _ => .error "api error") [] "owner/repo").cache = [] ∧
      (getRepoResult (fun _ => .error "api error") [] "owner/repo").remoteGets = 1 ∧
      (getRepoResult (fun _ => .error "api error")
        (getRepoResult (fun _ => .error "api error") [] "owner/repo").cache "owner/repo").remoteGets = 1) :=
  ⟨by decide,
   C5_failure_never_cached (fun _ => .error "api error") [] "owner/repo" "owner" "repo"
     "api error" (by decide) (by decide) rfl⟩

/-- C6: when the lookup for identity `k` fails while any other identity is
looked up as usual, the run returns no error, the failing identity contributes
no output, and every sibling identity's contribution is exactly what it would
be under any status function that agrees with the actual one away from `k`
(so a failing lookup never aborts the resolution or affects siblings); the
returned count is the number of printed lines. -/
theorem C6_partial_failure (ms : List Manifest) (ci : Bool)
    (lookup lookup2 : String → Except String RepoResult) (k e : String)
    (hfail : lookup k = .error e)
    (hagree : ∀ x, ¬ x = k → lookup2 x = lookup x) :
    (listArchived (.ok ms) none lookup ci).err = none ∧
    processRepo ci lookup (k, lookupIndex (buildIndex ms) k) = [] ∧
    (listArchived (.ok ms) none lookup ci).lines =
      ((policyKeep ci (buildIndex ms)).map (fun entry =>
        if entry.1 = k then [] else processRepo ci lookup2 entry)).flatten ∧
    (listArchived (.ok ms) none lookup ci).count =
      (listArchived (.ok ms) none lookup ci).lines.length := by
  have hmap : (policyKeep ci (buildIndex ms)).map (processRepo ci lookup) =
      (policyKeep ci (buildIndex ms)).map (fun entry =>
        if entry.1 = k then [] else processRepo ci lookup2 entry) := by
    apply List.map_congr_left
    intro entry _
    by_cases hk : entry.1 = k
    · rw [if_pos hk]
      have : lookup entry.1 = .error e := by rw [hk, hfail]
      unfold processRepo
      rw [this]
    · rw [if_neg hk]
      exact processRepo_ext ci lookup lookup2 entry (hagree entry.1 hk).symm
  by_cases hemp : (buildIndex ms).isEmpty
  · have he : buildIndex ms = [] := by simpa [List.isEmpty_iff] using hemp
    rw [listArchived_empty ms none lookup ci he]
    refine ⟨rfl, ?_, ?_, rfl⟩
    · exact processRepo_fail ci lookup k e _ hfail
    · rw [he]
      rfl
  · have hne : (buildIndex ms).isEmpty = false := by simpa using hemp
    rw [listArchived_run ms lookup ci hne]
    exact ⟨rfl, processRepo_fail ci lookup k e _ hfail, by rw [← hmap], rfl⟩

/-- C6 witness: three identities, the lookup for `p/q` failing; the agreeing
status function answers success everywhere. -/
theorem C6_partial_failure_witness :
    (fun r => if r = "p/q" then (.error "boom" : Except String RepoResult)
              else .ok ⟨true, "T"⟩) "p/q" = .error "boom" ∧
    ((listArchived
        (.ok [⟨"go.mod", [⟨"github.com/x/y", false⟩, ⟨"github.com/p/q", false⟩,
                          ⟨"github.com/r/s", false⟩], []⟩]) none
        (fun r => if r = "p/q" then .error "boom" else .ok ⟨true, "T"⟩) false).err = none ∧
      processRepo false (fun r => if r = "p/q" then .error "boom" else .ok ⟨true, "T"⟩)
        ("p/q",
          lookupIndex
            (buildIndex [⟨"go.mod", [⟨"github.com/x/y", false⟩, ⟨"github.com/p/q", false⟩,
                                     ⟨"github.com/r/s", false⟩], []⟩]) "p/q") = [] ∧
      (listArchived
        (.ok [⟨"go.mod", [⟨"github.com/x/y", false⟩, ⟨"github.com/p/q", false⟩,
                          ⟨"github.com/r/s", false⟩], []⟩]) none
        (fun r => if r = "p/q" then .error "boom" else .ok ⟨true, "T"⟩) false).lines =
        ((policyKeep false
            (buildIndex [⟨"go.mod", [⟨"github.com/x/y", false⟩, ⟨"github.com/p/q", false⟩,
                                     ⟨"github.com/r/s", false⟩], []⟩])).map (fun entry =>
          if entry.1 = "p/q" then []
          else processRepo false (fun _ => .ok ⟨true, "T"⟩) entry)).flatten ∧
      (listArchived
        (.ok [⟨"go.mod", [⟨"github.com/x/y", false⟩, ⟨"github.com/p/q", false⟩,
                          ⟨"github.com/r/s", false⟩], []⟩]) none
        (fun r => if r = "p/q" then .error "boom" else .ok ⟨true, "T"⟩) false).count =
        (listArchived
          (.ok [⟨"go.mod", [⟨"github.com/x/y", false⟩, ⟨"github.com/p/q", false⟩,
                            ⟨"github.com/r/s", false⟩], []⟩]) none
          (fun r => if r = "p/q" then .error "boom" else .ok ⟨true, "T"⟩) false).lines.length) :=
  ⟨by decide,
   C6_partial_failure _ false
     (fun r => if r = "p/q" then .error "boom" else .ok ⟨true, "T"⟩)
     (fun _ => .ok ⟨true, "T"⟩) "p/q" "boom" (by decide)
     (fun x hx => by simp [if_neg hx])⟩

/-- C7: when the located manifests yield an empty dependency index, the run
returns count 0 with no error, prints nothing, performs no lookup, and never
constructs the remote client. -/
theorem C7_empty_index_noop (ms : List Manifest) (ncErr : Option String)
    (lookup : String → Except String RepoResult) (ci : Bool)
    (h : buildIndex ms = []) :
    listArchived (.ok ms) ncErr lookup ci = ⟨0, none, [], [], false⟩ :=
  listArchived_empty ms ncErr lookup ci h

/-- C7 witness: a manifest whose requirements are not recognized github.com
module paths. -/
theorem C7_empty_index_noop_witness :
    buildIndex [⟨"go.mod", [⟨"example.org/a/b", false⟩, ⟨"github.com/onlyowner", true⟩], []⟩] =
      [] ∧
    listArchived
        (.ok [⟨"go.mod", [⟨"example.org/a/b", false⟩, ⟨"github.com/onlyowner", true⟩], []⟩])
        (some "no client") (fun _ => .error "unreachable") true =
      ⟨0, none, [], [], false⟩ :=
  ⟨by decide,
   C7_empty_index_noop [⟨"go.mod", [⟨"example.org/a/b", false⟩, ⟨"github.com/onlyowner", true⟩], []⟩]
     (some "no client") (fun _ => .error "unreachable") true (by decide)⟩

/-- C8: every printed line of a run reports one reference of a repository that
the status client returned as archived, and has exactly the form
`<manifestPath>: https://github.com/<owner>/<name> (last push: <timestamp>)`
with the suffix ` // indirect` appended exactly when that reference's indirect
flag is true. -/
theorem C8_line_format (ms : List Manifest) (lookup : String → Except String RepoResult)
    (ci : Bool) (line : String)
    (hline : line ∈ (listArchived (.ok ms) none lookup ci).lines) :
    ∃ repo infos info res,
      (repo, infos) ∈ policyKeep ci (buildIndex ms) ∧ info ∈ infos ∧
      lookup repo = .ok res ∧ res.archived = true ∧
      (ci || !info.indirect) = true ∧
      line = (info.goModPath ++ ": https://github.com/" ++ repo ++ " (last push: " ++
              res.pushedAt ++ ")") ++ (if info.indirect then " // indirect" else "") := by
  by_cases hemp : (buildIndex ms).isEmpty
  · have he : buildIndex ms = [] := by simpa [List.isEmpty_iff] using hemp
    rw [listArchived_empty ms none lookup ci he] at hline
    simp at hline
  · have hne : (buildIndex ms).isEmpty = false := by simpa using hemp
    rw [listArchived_run ms lookup ci hne] at hline
    dsimp only at hline
    rw [List.mem_flatten] at hline
    obtain ⟨l, hl, hmem⟩ := hline
    rw [List.mem_map] at hl
    obtain ⟨entry, hentry, rfl⟩ := hl
    unfold processRepo at hmem
    cases hlk : lookup entry.1 with
    | error e =>
      rw [hlk] at hmem
      simp at hmem
    | ok res =>
      rw [hlk] at hmem
      dsimp only at hmem
      by_cases harch : res.archived = true
      · rw [if_pos harch] at hmem
        rw [List.mem_filterMap] at hmem
        obtain ⟨info, hinfo, hsome⟩ := hmem
        by_cases hcond : (!ci && info.indirect) = true
        · rw [if_pos hcond] at hsome
          simp at hsome
        · rw [if_neg hcond] at hsome
          simp only [Option.some.injEq] at hsome
          refine ⟨entry.1, entry.2, info, res, hentry, hinfo, hlk, harch, ?_, ?_⟩
          · cases ci <;> cases hi : info.indirect <;> simp_all
          · rw [← hsome, printLine_format]
      · rw [if_neg harch] at hmem
        simp at hmem

/-- C8 witness: a run printing a single indirect line. -/
theorem C8_line_format_witness :
    "a/go.mod: https://github.com/x/y (last push: T) // indirect" ∈
      (listArchived (.ok [⟨"a/go.mod", [⟨"github.com/x/y", true⟩], []⟩]) none
        (fun _ => .ok ⟨true, "T"⟩) true).lines ∧
    ∃ repo infos info res,
      (repo, infos) ∈ policyKeep true (buildIndex [⟨"a/go.mod", [⟨"github.com/x/y", true⟩], []⟩]) ∧
      info ∈ infos ∧
      (fun _ => (.ok ⟨true, "T"⟩ : Except String RepoResult)) repo = .ok res ∧
      res.archived = true ∧
      (true || !info.indirect) = true ∧
      "a/go.mod: https://github.com/x/y (last push: T) // indirect" =
        (info.goModPath ++ ": https://github.com/" ++ repo ++ " (last push: " ++
          res.pushedAt ++ ")") ++ (if info.indirect then " // indirect" else "") :=
  ⟨by decide,
   C8_line_format [⟨"a/go.mod", [⟨"github.com/x/y", true⟩], []⟩]
     (fun _ => .ok ⟨true, "T"⟩) true
     "a/go.mod: https://github.com/x/y (last push: T) // indirect" (by decide)⟩

/-- C9 counterexample: in the event trace of `archivedPrinter.Print`, the
output-line write at a concrete input is not inside the lock/unlock section —
the increment-and-print pair is not performed as one mutex-guarded sequence. -/
theorem C9_print_outside_mutex :
    ¬ guardedIn (printTrace "a/go.mod" "x/y" "2024-01-01T00:00:00Z" false)
        (.out (printLine "a/go.mod" "x/y" "2024-01-01T00:00:00Z" false)) := by
  decide

/-- C9 (amended): the mutex of `archivedPrinter` guards only the counter
increment; the output line is written before the mutex is acquired, outside
the lock/unlock section. -/
theorem C9_mutex_guards_increment_only (p r t : String) (i : Bool) :
    guardedIn (printTrace p r t i) .inc ∧
    ¬ guardedIn (printTrace p r t i) (.out (printLine p r t i)) := by
  constructor
  · exact ⟨⟨1, by simp [printTrace]⟩, ⟨2, by simp [printTrace]⟩, ⟨3, by simp [printTrace]⟩,
      by simp [Fin.lt_def], by simp [Fin.lt_def], rfl, rfl, rfl⟩
  · rintro ⟨a, b, c, hab, hbc, ha, hb, hc⟩
    have hb4 : b.val < 4 := b.isLt
    have hbval : b.val = 0 := by
      by_contra hne
      have h123 : b.val = 1 ∨ b.val = 2 ∨ b.val = 3 := by omega
      rcases h123 with h1 | h1 | h1
      · have hg : (printTrace p r t i).get ⟨1, by simp [printTrace]⟩ = PrintEv.lock := rfl
        rw [show b = ⟨1, by simp [printTrace]⟩ from Fin.ext h1, hg] at hb
        exact PrintEv.noConfusion hb
      · have hg : (printTrace p r t i).get ⟨2, by simp [printTrace]⟩ = PrintEv.inc := rfl
        rw [show b = ⟨2, by simp [printTrace]⟩ from Fin.ext h1, hg] at hb
        exact PrintEv.noConfusion hb
      · have hg : (printTrace p r t i).get ⟨3, by simp [printTrace]⟩ = PrintEv.unlock := rfl
        rw [show b = ⟨3, by simp [printTrace]⟩ from Fin.ext h1, hg] at hb
        exact PrintEv.noConfusion hb
    rw [Fin.lt_def] at hab
    omega

/-- C10: whenever `ListArchived` returns a non-nil error, the returned count
is 0 and no output line has been printed. -/
theorem C10_error_means_zero (walk : Except String (List Manifest)) (ncErr : Option String)
    (lookup : String → Except String RepoResult) (ci : Bool)
    (h : ¬ (listArchived walk ncErr lookup ci).err = none) :
    (listArchived walk ncErr lookup ci).count = 0 ∧
    (listArchived walk ncErr lookup ci).lines = [] := by
  cases walk with
  | error e => rw [listArchived_walk_fail]; exact ⟨rfl, rfl⟩
  | ok ms =>
    by_cases hemp : (buildIndex ms).isEmpty
    · have he : buildIndex ms = [] := by simpa [List.isEmpty_iff] using hemp
      rw [listArchived_empty ms ncErr lookup ci he] at h
      simp at h
    · have hne : (buildIndex ms).isEmpty = false := by simpa using hemp
      cases ncErr with
      | some e2 => rw [listArchived_client_fail ms e2 lookup ci hne]; exact ⟨rfl, rfl⟩
      | none =>
        rw [listArchived_run ms lookup ci hne] at h
        simp at h

/-- C10 witness: a failed manifest traversal. -/
theorem C10_error_means_zero_witness :
    ¬ (listArchived (.error "permission denied") none
        (fun _ => (.error "unreachable" : Except String RepoResult)) false).err = none ∧
    ((listArchived (.error "permission denied") none
        (fun _ => (.error "unreachable" : Except String RepoResult)) false).count = 0 ∧
      (listArchived (.error "permission denied") none
        (fun _ => (.error "unreachable" : Except String RepoResult)) false).lines = []) :=
  ⟨by decide,
   C10_error_means_zero (.error "permission denied") none
     (fun _ => .error "unreachable") false (by decide)⟩

end GhArc
